import Mathlib

/-!
Verification of the bank program (src/bank/program/src): a shallow
embedding of the binary state codec (state.rs), the instruction codec
(instruction.rs) and the instruction processor (processor.rs), with
proofs of the specification's claims about them.

Byte buffers are modelled as lists of naturals (a byte is a natural
below 256); 32-byte identifiers as lists of length 32; u64 arithmetic
as naturals with explicit checked bounds at 2^64, matching the
checked_add / checked_sub calls of the source.
-/

namespace BankSpec

/-- 32-byte identifier, as in solana_program::pubkey::Pubkey. -/
abbrev Pubkey := List Nat

/-- The program errors the processor and codec return. -/
inductive ProgramError where
  | InvalidInstructionData
  | IllegalOwner
  | MissingRequiredSignature
  | AccountAlreadyInitialized
  | InvalidAccountData
  | InvalidArgument
  | UninitializedAccount
  | NotEnoughAccountKeys
deriving DecidableEq, Repr

deriving instance DecidableEq for Except

/-- One more than the largest u64 value. -/
def U64LIMIT : Nat := 18446744073709551616

/-- u64::checked_add: addition that fails on 64-bit overflow. -/
def checked_add (a b : Nat) : Option Nat :=
  if a + b < U64LIMIT then some (a + b) else none

/-- u64::checked_sub: subtraction that fails on underflow. -/
def checked_sub (a b : Nat) : Option Nat :=
  if b ≤ a then some (a - b) else none

/-- u64::to_le_bytes: the eight little-endian bytes of a u64. -/
def u64ToLeBytes (n : Nat) : List Nat :=
  [n % 256, n / 256 % 256, n / 65536 % 256, n / 16777216 % 256,
   n / 4294967296 % 256, n / 1099511627776 % 256,
   n / 281474976710656 % 256, n / 72057594037927936 % 256]

/-- u64::from_le_bytes applied to the first eight bytes of a slice
(zero if fewer than eight bytes are present; callers check length). -/
def leBytesToU64 (bs : List Nat) : Nat :=
  match bs with
  | b0 :: b1 :: b2 :: b3 :: b4 :: b5 :: b6 :: b7 :: _ =>
      b0 + 256 * b1 + 65536 * b2 + 16777216 * b3 + 4294967296 * b4 +
        1099511627776 * b5 + 281474976710656 * b6 + 72057594037927936 * b7
  | _ => 0

/-- state.rs: the Bank record. -/
structure Bank where
  decimals : Nat
  bank_owner : Pubkey
  is_opened : Bool
  total_supply : Nat
deriving DecidableEq, Repr

/-- state.rs: the Account record.  COption<Pubkey> is modelled as
Option Pubkey. -/
structure Account where
  amount : Nat
  is_opened : Bool
  is_initialized : Bool
  owner : Pubkey
  delegate : Option Pubkey
  delegated_amount : Nat
  bank : Pubkey
deriving DecidableEq, Repr

/-- Account::can_trade. -/
def Account.can_trade (a : Account) : Bool :=
  a.is_opened && a.is_initialized

/-- state.rs Bank::unpack_from_slice, reading the 42-byte layout
decimals(1) bank_owner(32) is_opened(1) total_supply(8); a flag byte is
true exactly when it is 1.  Called only on 42-byte slices. -/
def bankUnpackFromSlice (src : List Nat) : Bank :=
  { decimals := src.headD 0
    bank_owner := (src.drop 1).take 32
    is_opened := (src.drop 33).headD 0 == 1
    total_supply := leBytesToU64 (src.drop 34) }

/-- Pack::unpack_unchecked for Bank: length gate then field decode. -/
def bankUnpackUnchecked (src : List Nat) : Except ProgramError Bank :=
  if src.length = 42 then .ok (bankUnpackFromSlice src)
  else .error .InvalidAccountData

/-- Pack::unpack for Bank: unpack_unchecked plus the is_initialized
check, which for Bank is the is_opened flag. -/
def bankUnpack (src : List Nat) : Except ProgramError Bank :=
  match bankUnpackUnchecked src with
  | .error e => .error e
  | .ok b => if b.is_opened then .ok b else .error .UninitializedAccount

/-- state.rs Bank::pack_into_slice.  The is_opened byte is written only
when the flag is true; when false the destination's prior byte at
offset 33 is left in place, exactly as in the source. -/
def bankPackIntoSlice (b : Bank) (dst : List Nat) : List Nat :=
  b.decimals ::
    (b.bank_owner ++
      ((if b.is_opened then 1 else (dst.drop 33).headD 0) ::
        u64ToLeBytes b.total_supply))

/-- Pack::pack for Bank: length gate then pack_into_slice. -/
def bankPack (b : Bank) (dst : List Nat) : Except ProgramError (List Nat) :=
  if dst.length = 42 then .ok (bankPackIntoSlice b dst)
  else .error .InvalidAccountData

/-- state.rs unpack_coption_key on the 36-byte delegate field: tag
[0,0,0,0] is absent, [1,0,0,0] is present, anything else is a hard
decode error. -/
def unpack_coption_key (src : List Nat) :
    Except ProgramError (Option Pubkey) :=
  match src.take 4 with
  | [0, 0, 0, 0] => .ok none
  | [1, 0, 0, 0] => .ok ((src.drop 4).take 32)
  | _ => .error .InvalidAccountData

/-- state.rs pack_coption_key: writes the tag, and the key body only
when present; an absent delegate leaves the prior 32 body bytes. -/
def pack_coption_key (src : Option Pubkey) (priorBody : List Nat) :
    List Nat :=
  match src with
  | some k => 1 :: 0 :: 0 :: 0 :: k
  | none => 0 :: 0 :: 0 :: 0 :: priorBody

/-- state.rs Account::unpack_from_slice over the 118-byte layout
amount(8) is_opened(1) is_initialized(1) owner(32) delegate(36)
delegated_amount(8) bank(32). -/
def accountUnpackFromSlice (src : List Nat) :
    Except ProgramError Account :=
  match unpack_coption_key ((src.drop 42).take 36) with
  | .error e => .error e
  | .ok del => .ok
      { amount := leBytesToU64 src
        is_opened := (src.drop 8).headD 0 == 1
        is_initialized := (src.drop 9).headD 0 == 1
        owner := (src.drop 10).take 32
        delegate := del
        delegated_amount := leBytesToU64 (src.drop 78)
        bank := (src.drop 86).take 32 }

/-- Pack::unpack_unchecked for Account. -/
def accountUnpackUnchecked (src : List Nat) :
    Except ProgramError Account :=
  if src.length = 118 then accountUnpackFromSlice src
  else .error .InvalidAccountData

/-- Pack::unpack for Account: also requires is_initialized. -/
def accountUnpack (src : List Nat) : Except ProgramError Account :=
  match accountUnpackUnchecked src with
  | .error e => .error e
  | .ok a =>
      if a.is_initialized then .ok a else .error .UninitializedAccount

/-- state.rs Account::pack_into_slice.  is_opened is written as 1 or 0;
is_initialized is written only when true (otherwise the prior byte at
offset 9 remains); an absent delegate keeps the prior body bytes at
offsets 46..78, exactly as in the source. -/
def accountPackIntoSlice (a : Account) (dst : List Nat) : List Nat :=
  u64ToLeBytes a.amount ++
    ((if a.is_opened then 1 else 0) ::
      ((if a.is_initialized then 1 else (dst.drop 9).headD 0) ::
        (a.owner ++
          (pack_coption_key a.delegate ((dst.drop 46).take 32) ++
            (u64ToLeBytes a.delegated_amount ++ a.bank)))))

/-- Pack::pack for Account. -/
def accountPack (a : Account) (dst : List Nat) :
    Except ProgramError (List Nat) :=
  if dst.length = 118 then .ok (accountPackIntoSlice a dst)
  else .error .InvalidAccountData

/-- instruction.rs BankInstruction. -/
inductive BankInstruction where
  | InitializeBank (decimals : Nat)
  | InitializeAccount
  | Transfer (amount : Nat)
  | Approve (amount : Nat)
  | MintTo (amount : Nat)
  | Burn (amount : Nat)
  | CloseAccount
deriving DecidableEq, Repr

/-- instruction.rs BankInstruction::unpack: split the leading tag byte,
then decode the variant body (a decimals byte for tag 0, eight
little-endian amount bytes for tags 2..5, nothing for tags 1 and 6). -/
def BankInstruction.unpack (input : List Nat) :
    Except ProgramError BankInstruction :=
  match input with
  | [] => .error .InvalidInstructionData
  | tag :: rest =>
    match tag with
    | 0 =>
        match rest with
        | [] => .error .InvalidInstructionData
        | d :: _ => .ok (.InitializeBank d)
    | 1 => .ok .InitializeAccount
    | 2 =>
        if rest.length < 8 then .error .InvalidInstructionData
        else .ok (.Transfer (leBytesToU64 rest))
    | 3 =>
        if rest.length < 8 then .error .InvalidInstructionData
        else .ok (.Approve (leBytesToU64 rest))
    | 4 =>
        if rest.length < 8 then .error .InvalidInstructionData
        else .ok (.MintTo (leBytesToU64 rest))
    | 5 =>
        if rest.length < 8 then .error .InvalidInstructionData
        else .ok (.Burn (leBytesToU64 rest))
    | 6 => .ok .CloseAccount
    | _ => .error .InvalidInstructionData

/-- The host's view of one account handle passed to the processor:
its address, the owning program of its buffer, the signer flag, and
the byte buffer itself. -/
structure AccountInfo where
  key : Pubkey
  owner : Pubkey
  is_signer : Bool
  data : List Nat
deriving DecidableEq, Repr

/-- A placeholder handle used only to read a list head. -/
def dummyInfo : AccountInfo := ⟨[], [], false, []⟩

/-- A processor call returns the account handles (with whatever buffer
writes happened before returning) and an optional error; `none` is
success.  This preserves the source's write ordering: all packs happen
after all checks, and a hypothetical failure between two packs would
leave the first write behind. -/
abbrev ProcOut := List AccountInfo × Option ProgramError

namespace Processor

/-- processor.rs Processor::validate_owner: the authority must sign;
a matching delegate authorizes the delegate path (true); otherwise the
authority must equal the account owner (false). -/
def validate_owner (from_account : Account)
    (owner_account_info : AccountInfo) : Except ProgramError Bool :=
  if !owner_account_info.is_signer then .error .MissingRequiredSignature
  else
    match from_account.delegate with
    | some k =>
        if k = owner_account_info.key then .ok true
        else if from_account.owner ≠ owner_account_info.key then
          .error .IllegalOwner
        else .ok false
    | none =>
        if from_account.owner ≠ owner_account_info.key then
          .error .IllegalOwner
        else .ok false

/-- processor.rs Processor::process_initialize_bank. -/
def process_initialize_bank (program_id : Pubkey)
    (accounts : List AccountInfo) (decimals : Nat) : ProcOut :=
  match accounts with
  | bankI :: ownI :: rest =>
    if bankI.owner ≠ program_id then (accounts, some .IllegalOwner)
    else if !ownI.is_signer then
      (accounts, some .MissingRequiredSignature)
    else
      match bankUnpackUnchecked bankI.data with
      | .error e => (accounts, some e)
      | .ok bank =>
        if bank.is_opened then
          (accounts, some .AccountAlreadyInitialized)
        else
          let bank1 : Bank :=
            { bank with decimals := decimals, bank_owner := ownI.key,
                        is_opened := true }
          match bankPack bank1 bankI.data with
          | .error e => (accounts, some e)
          | .ok d1 => ({ bankI with data := d1 } :: ownI :: rest, none)
  | _ => (accounts, some .NotEnoughAccountKeys)

/-- processor.rs Processor::process_initialize_account.  Note that the
bank handle's buffer is never read: only its key is stored. -/
def process_initialize_account (program_id : Pubkey)
    (accounts : List AccountInfo) : ProcOut :=
  match accounts with
  | bankI :: accI :: ownI :: rest =>
    if bankI.owner ≠ program_id ∨ accI.owner ≠ program_id then
      (accounts, some .IllegalOwner)
    else if !ownI.is_signer then
      (accounts, some .MissingRequiredSignature)
    else
      match accountUnpackUnchecked accI.data with
      | .error e => (accounts, some e)
      | .ok acc =>
        if acc.is_initialized then
          (accounts, some .AccountAlreadyInitialized)
        else
          let acc1 : Account :=
            { acc with amount := 0, bank := bankI.key,
                       owner := ownI.key, is_initialized := true,
                       is_opened := true, delegate := none,
                       delegated_amount := 0 }
          match accountPack acc1 accI.data with
          | .error e => (accounts, some e)
          | .ok d1 =>
              (bankI :: { accI with data := d1 } :: ownI :: rest, none)
  | _ => (accounts, some .NotEnoughAccountKeys)

/-- processor.rs Processor::process_transfer. -/
def process_transfer (program_id : Pubkey)
    (accounts : List AccountInfo) (transfer_amount : Nat) : ProcOut :=
  match accounts with
  | fromI :: toI :: authI :: rest =>
    if fromI.owner ≠ program_id ∨ toI.owner ≠ program_id then
      (accounts, some .IllegalOwner)
    else
      match accountUnpack fromI.data with
      | .error e => (accounts, some e)
      | .ok from_account =>
        match accountUnpack toI.data with
        | .error e => (accounts, some e)
        | .ok to_account =>
          if !from_account.can_trade ∨ !to_account.can_trade then
            (accounts, some .InvalidAccountData)
          else if from_account.bank ≠ to_account.bank then
            (accounts, some .InvalidAccountData)
          else
            match validate_owner from_account authI with
            | .error e => (accounts, some e)
            | .ok use_delegate =>
              let step :
                  Except ProgramError Account :=
                if use_delegate then
                  if from_account.delegated_amount < transfer_amount then
                    .error .InvalidAccountData
                  else
                    match checked_sub from_account.delegated_amount
                        transfer_amount with
                    | none => .error .InvalidArgument
                    | some v =>
                        .ok { from_account with delegated_amount := v }
                else
                  if from_account.amount < transfer_amount then
                    .error .InvalidAccountData
                  else
                    match checked_sub from_account.amount
                        transfer_amount with
                    | none => .error .InvalidArgument
                    | some v => .ok { from_account with amount := v }
              match step with
              | .error e => (accounts, some e)
              | .ok from1 =>
                match checked_add to_account.amount transfer_amount with
                | none => (accounts, some .InvalidArgument)
                | some w =>
                  let to1 : Account := { to_account with amount := w }
                  match accountPack from1 fromI.data with
                  | .error e => (accounts, some e)
                  | .ok d1 =>
                    match accountPack to1 toI.data with
                    | .error e =>
                        ({ fromI with data := d1 } :: toI :: authI ::
                          rest, some e)
                    | .ok d2 =>
                        ({ fromI with data := d1 } ::
                          { toI with data := d2 } :: authI :: rest,
                          none)
  | _ => (accounts, some .NotEnoughAccountKeys)

/-- processor.rs Processor::process_approve.  The delegate slot is
resolved (kept if it matches the named delegate, set when absent)
before validate_owner runs on the updated record. -/
def process_approve (program_id : Pubkey)
    (accounts : List AccountInfo) (delegate_amount : Nat) : ProcOut :=
  match accounts with
  | accI :: delI :: ownI :: rest =>
    if accI.owner ≠ program_id then (accounts, some .IllegalOwner)
    else
      match accountUnpackUnchecked accI.data with
      | .error e => (accounts, some e)
      | .ok bank_account =>
        if !bank_account.can_trade then
          (accounts, some .InvalidAccountData)
        else if bank_account.amount < delegate_amount then
          (accounts, some .InvalidArgument)
        else
          match
            (match bank_account.delegate with
             | some k =>
                 if k ≠ delI.key then .error .InvalidArgument
                 else .ok bank_account
             | none =>
                 .ok { bank_account with delegate := some delI.key } :
              Except ProgramError Account) with
          | .error e => (accounts, some e)
          | .ok acc1 =>
            match validate_owner acc1 ownI with
            | .error e => (accounts, some e)
            | .ok _ =>
              match checked_sub acc1.amount delegate_amount with
              | none => (accounts, some .InvalidArgument)
              | some v =>
                match checked_add acc1.delegated_amount
                    delegate_amount with
                | none => (accounts, some .InvalidArgument)
                | some w =>
                  let acc2 : Account :=
                    { acc1 with amount := v, delegated_amount := w }
                  match accountPack acc2 accI.data with
                  | .error e => (accounts, some e)
                  | .ok d1 =>
                      ({ accI with data := d1 } :: delI :: ownI :: rest,
                        none)
  | _ => (accounts, some .NotEnoughAccountKeys)

/-- processor.rs Processor::process_mint_to. -/
def process_mint_to (program_id : Pubkey)
    (accounts : List AccountInfo) (mint_amount : Nat) : ProcOut :=
  match accounts with
  | bankI :: toI :: ownI :: rest =>
    if bankI.owner ≠ program_id ∨ toI.owner ≠ program_id then
      (accounts, some .IllegalOwner)
    else if !ownI.is_signer then
      (accounts, some .MissingRequiredSignature)
    else
      match bankUnpack bankI.data with
      | .error e => (accounts, some e)
      | .ok bank =>
        match accountUnpack toI.data with
        | .error e => (accounts, some e)
        | .ok to_account =>
          if to_account.bank ≠ bankI.key then
            (accounts, some .IllegalOwner)
          else if !to_account.can_trade then
            (accounts, some .InvalidAccountData)
          else if bank.bank_owner ≠ ownI.key then
            (accounts, some .IllegalOwner)
          else
            match checked_add bank.total_supply mint_amount with
            | none => (accounts, some .InvalidArgument)
            | some s =>
              match checked_add to_account.amount mint_amount with
              | none => (accounts, some .InvalidArgument)
              | some w =>
                let bank1 : Bank := { bank with total_supply := s }
                let to1 : Account := { to_account with amount := w }
                match bankPack bank1 bankI.data with
                | .error e => (accounts, some e)
                | .ok db =>
                  match accountPack to1 toI.data with
                  | .error e =>
                      ({ bankI with data := db } :: toI :: ownI :: rest,
                        some e)
                  | .ok dt =>
                      ({ bankI with data := db } ::
                        { toI with data := dt } :: ownI :: rest, none)
  | _ => (accounts, some .NotEnoughAccountKeys)

/-- processor.rs Processor::process_burn. -/
def process_burn (program_id : Pubkey)
    (accounts : List AccountInfo) (burn_amount : Nat) : ProcOut :=
  match accounts with
  | bankI :: burnI :: ownI :: srcOwnI :: rest =>
    if bankI.owner ≠ program_id ∨ burnI.owner ≠ program_id then
      (accounts, some .IllegalOwner)
    else if !ownI.is_signer ∨ !srcOwnI.is_signer then
      (accounts, some .MissingRequiredSignature)
    else
      match bankUnpack bankI.data with
      | .error e => (accounts, some e)
      | .ok bank =>
        match accountUnpack burnI.data with
        | .error e => (accounts, some e)
        | .ok src_account =>
          if src_account.bank ≠ bankI.key then
            (accounts, some .IllegalOwner)
          else if bank.bank_owner ≠ ownI.key ∨
              src_account.owner ≠ srcOwnI.key then
            (accounts, some .IllegalOwner)
          else if src_account.amount < burn_amount then
            (accounts, some .InvalidArgument)
          else
            match checked_sub bank.total_supply burn_amount with
            | none => (accounts, some .InvalidArgument)
            | some s =>
              match checked_sub src_account.amount burn_amount with
              | none => (accounts, some .InvalidArgument)
              | some v =>
                let bank1 : Bank := { bank with total_supply := s }
                let src1 : Account := { src_account with amount := v }
                match bankPack bank1 bankI.data with
                | .error e => (accounts, some e)
                | .ok db =>
                  match accountPack src1 burnI.data with
                  | .error e =>
                      ({ bankI with data := db } :: burnI :: ownI ::
                        srcOwnI :: rest, some e)
                  | .ok ds =>
                      ({ bankI with data := db } ::
                        { burnI with data := ds } :: ownI :: srcOwnI ::
                        rest, none)
  | _ => (accounts, some .NotEnoughAccountKeys)

/-- processor.rs Processor::process_close_account. -/
def process_close_account (program_id : Pubkey)
    (accounts : List AccountInfo) : ProcOut :=
  match accounts with
  | accI :: ownI :: rest =>
    if accI.owner ≠ program_id then (accounts, some .IllegalOwner)
    else if !ownI.is_signer then
      (accounts, some .MissingRequiredSignature)
    else
      match accountUnpack accI.data with
      | .error e => (accounts, some e)
      | .ok acc =>
        if acc.owner ≠ ownI.key then (accounts, some .IllegalOwner)
        else
          let acc1 : Account := { acc with is_opened := false }
          match accountPack acc1 accI.data with
          | .error e => (accounts, some e)
          | .ok d1 => ({ accI with data := d1 } :: ownI :: rest, none)
  | _ => (accounts, some .NotEnoughAccountKeys)

/-- processor.rs Processor::process: decode the instruction, then
dispatch to the per-variant handler. -/
def process (program_id : Pubkey) (accounts : List AccountInfo)
    (input : List Nat) : ProcOut :=
  match BankInstruction.unpack input with
  | .error e => (accounts, some e)
  | .ok instruction =>
    match instruction with
    | .InitializeBank decimals =>
        process_initialize_bank program_id accounts decimals
    | .InitializeAccount =>
        process_initialize_account program_id accounts
    | .Transfer amount => process_transfer program_id accounts amount
    | .Approve amount => process_approve program_id accounts amount
    | .MintTo amount => process_mint_to program_id accounts amount
    | .Burn amount => process_burn program_id accounts amount
    | .CloseAccount => process_close_account program_id accounts

end Processor

/-- Every entry of a buffer is a byte. -/
@[reducible] def bytesValid (l : List Nat) : Prop := ∀ b ∈ l, b < 256

/-- The delegate slot, when present, holds a 32-byte identifier. -/
def delegateValid : Option Pubkey → Prop
  | none => True
  | some k => k.length = 32 ∧ bytesValid k

/-- The delegate slot, when present, holds a list of length 32. -/
def delegateKeyLen : Option Pubkey → Prop
  | none => True
  | some k => k.length = 32

instance : (o : Option Pubkey) → Decidable (delegateValid o)
  | none => isTrue trivial
  | some k => inferInstanceAs (Decidable (k.length = 32 ∧ bytesValid k))

instance : (o : Option Pubkey) → Decidable (delegateKeyLen o)
  | none => isTrue trivial
  | some k => inferInstanceAs (Decidable (k.length = 32))

/-- The field constraints of a well-formed Bank value: a u8 decimals,
a 32-byte owner identifier, a u64 supply. -/
@[reducible] def Bank.Valid (b : Bank) : Prop :=
  b.decimals < 256 ∧ b.bank_owner.length = 32 ∧
    bytesValid b.bank_owner ∧ b.total_supply < U64LIMIT

/-- The field constraints of a well-formed Account value. -/
@[reducible] def Account.Valid (a : Account) : Prop :=
  a.amount < U64LIMIT ∧ a.delegated_amount < U64LIMIT ∧
    a.owner.length = 32 ∧ bytesValid a.owner ∧
    a.bank.length = 32 ∧ bytesValid a.bank ∧
    delegateValid a.delegate

/-- Encoding a Bank value to its 42-byte layout: pack into a fresh
zero-filled buffer. -/
def bankEncode (b : Bank) : List Nat :=
  bankPackIntoSlice b (List.replicate 42 0)

/-- Encoding an Account value to its 118-byte layout. -/
def accountEncode (a : Account) : List Nat :=
  accountPackIntoSlice a (List.replicate 118 0)

/-! ### Codec lemmas -/

theorem drop_len_append (l₁ l₂ : List Nat) (n : Nat)
    (h : l₁.length = n) : (l₁ ++ l₂).drop n = l₂ := by
  subst h
  induction l₁ with
  | nil => simp
  | cons a t ih => simp [ih]

theorem take_len_append (l₁ l₂ : List Nat) (n : Nat)
    (h : l₁.length = n) : (l₁ ++ l₂).take n = l₁ := by
  subst h
  induction l₁ with
  | nil => simp
  | cons a t ih => simp [ih]

theorem u64le_length (n : Nat) : (u64ToLeBytes n).length = 8 := rfl

theorem le_append_roundtrip (n : Nat) (rest : List Nat)
    (h : n < U64LIMIT) :
    leBytesToU64 (u64ToLeBytes n ++ rest) = n := by
  simp only [u64ToLeBytes, List.cons_append, List.nil_append,
    leBytesToU64, U64LIMIT] at *
  omega

theorem le_roundtrip (n : Nat) (h : n < U64LIMIT) :
    leBytesToU64 (u64ToLeBytes n) = n := by
  simpa using le_append_roundtrip n [] h

theorem leBytes_lt (l : List Nat) (h : bytesValid l) :
    leBytesToU64 l < U64LIMIT := by
  have hz : (0 : Nat) < U64LIMIT := by decide
  rcases l with _ | ⟨b0, l⟩
  · exact hz
  rcases l with _ | ⟨b1, l⟩
  · exact hz
  rcases l with _ | ⟨b2, l⟩
  · exact hz
  rcases l with _ | ⟨b3, l⟩
  · exact hz
  rcases l with _ | ⟨b4, l⟩
  · exact hz
  rcases l with _ | ⟨b5, l⟩
  · exact hz
  rcases l with _ | ⟨b6, l⟩
  · exact hz
  rcases l with _ | ⟨b7, l⟩
  · exact hz
  simp only [bytesValid, List.mem_cons] at h
  have h0 := h b0 (by tauto)
  have h1 := h b1 (by tauto)
  have h2 := h b2 (by tauto)
  have h3 := h b3 (by tauto)
  have h4 := h b4 (by tauto)
  have h5 := h b5 (by tauto)
  have h6 := h b6 (by tauto)
  have h7 := h b7 (by tauto)
  simp only [leBytesToU64, U64LIMIT]
  omega

/-- Decoding the explicit 42-byte Bank layout with an arbitrary flag
byte that agrees with the flag value. -/
theorem bank_layout_decode (dec : Nat) (owner : Pubkey)
    (opened : Bool) (sup : Nat) (w : Nat)
    (howner : owner.length = 32) (hsup : sup < U64LIMIT)
    (hww : (w == 1) = opened) :
    bankUnpackUnchecked (dec :: (owner ++ (w :: u64ToLeBytes sup))) =
      .ok (Bank.mk dec owner opened sup) := by
  have hlen : (dec :: (owner ++ (w :: u64ToLeBytes sup))).length = 42 := by
    simp [howner, u64le_length]
  have h1 : (dec :: (owner ++ (w :: u64ToLeBytes sup))).drop 1 =
      owner ++ (w :: u64ToLeBytes sup) := rfl
  have h33 : (dec :: (owner ++ (w :: u64ToLeBytes sup))).drop 33 =
      w :: u64ToLeBytes sup := by
    have h2 : (dec :: (owner ++ (w :: u64ToLeBytes sup))).drop 33 =
        ((dec :: (owner ++ (w :: u64ToLeBytes sup))).drop 1).drop 32 := by
      rw [List.drop_drop]
    rw [h2, h1, drop_len_append _ _ _ howner]
  have h34 : (dec :: (owner ++ (w :: u64ToLeBytes sup))).drop 34 =
      u64ToLeBytes sup := by
    have h2 : (dec :: (owner ++ (w :: u64ToLeBytes sup))).drop 34 =
        ((dec :: (owner ++ (w :: u64ToLeBytes sup))).drop 33).drop 1 := by
      rw [List.drop_drop]
    rw [h2, h33]
    simp
  unfold bankUnpackUnchecked bankUnpackFromSlice
  rw [if_pos hlen]
  simp only [h1, h33, h34]
  simp [take_len_append _ _ _ howner, le_roundtrip sup hsup, hww]

/-- Re-decoding a Bank packed into any buffer recovers the value, as
long as the flag byte cannot be confused: either the flag is true (so
1 is written) or the destination's stale byte at offset 33 is 0. -/
theorem bank_repack (b : Bank) (dst : List Nat)
    (howner : b.bank_owner.length = 32)
    (hsup : b.total_supply < U64LIMIT)
    (hflag : b.is_opened = true ∨ (dst.drop 33).headD 0 = 0) :
    bankUnpackUnchecked (bankPackIntoSlice b dst) = .ok b := by
  obtain ⟨dec, owner, opened, sup⟩ := b
  simp only at howner hsup hflag
  unfold bankPackIntoSlice
  apply bank_layout_decode _ _ _ _ _ howner hsup
  cases opened with
  | true => simp
  | false =>
      rcases hflag with h | h
      · exact absurd h (by simp)
      · have h2 : dst[33]?.getD 0 = 0 := by simpa using h
        simp [h2]

/-- Decoding the explicit 118-byte Account layout with arbitrary flag
bytes and delegate segment that agree with the field values. -/
theorem account_layout_decode (amt : Nat) (opened init : Bool)
    (owner : Pubkey) (del : Option Pubkey) (da : Nat) (bank : Pubkey)
    (wop win : Nat) (delseg : List Nat)
    (howner : owner.length = 32) (hbank : bank.length = 32)
    (ham : amt < U64LIMIT) (hda : da < U64LIMIT)
    (hop : (wop == 1) = opened) (hin : (win == 1) = init)
    (hdelseglen : delseg.length = 36)
    (hdeldec : unpack_coption_key delseg = .ok del) :
    accountUnpackUnchecked
        (u64ToLeBytes amt ++
          (wop :: (win :: (owner ++
            (delseg ++ (u64ToLeBytes da ++ bank)))))) =
      .ok (Account.mk amt opened init owner del da bank) := by
  have h8 : (u64ToLeBytes amt ++
      (wop :: (win :: (owner ++
        (delseg ++ (u64ToLeBytes da ++ bank)))))).drop 8 =
      wop :: (win :: (owner ++ (delseg ++ (u64ToLeBytes da ++ bank)))) :=
    drop_len_append _ _ _ (u64le_length amt)
  have h9 : (u64ToLeBytes amt ++
      (wop :: (win :: (owner ++
        (delseg ++ (u64ToLeBytes da ++ bank)))))).drop 9 =
      win :: (owner ++ (delseg ++ (u64ToLeBytes da ++ bank))) := by
    have h2 : (u64ToLeBytes amt ++
        (wop :: (win :: (owner ++
          (delseg ++ (u64ToLeBytes da ++ bank)))))).drop 9 =
        ((u64ToLeBytes amt ++
          (wop :: (win :: (owner ++
            (delseg ++ (u64ToLeBytes da ++ bank)))))).drop 8).drop 1 := by
      rw [List.drop_drop]
    rw [h2, h8]
    simp
  have h10 : (u64ToLeBytes amt ++
      (wop :: (win :: (owner ++
        (delseg ++ (u64ToLeBytes da ++ bank)))))).drop 10 =
      owner ++ (delseg ++ (u64ToLeBytes da ++ bank)) := by
    have h2 : (u64ToLeBytes amt ++
        (wop :: (win :: (owner ++
          (delseg ++ (u64ToLeBytes da ++ bank)))))).drop 10 =
        ((u64ToLeBytes amt ++
          (wop :: (win :: (owner ++
            (delseg ++ (u64ToLeBytes da ++ bank)))))).drop 9).drop 1 := by
      rw [List.drop_drop]
    rw [h2, h9]
    simp
  have h42 : (u64ToLeBytes amt ++
      (wop :: (win :: (owner ++
        (delseg ++ (u64ToLeBytes da ++ bank)))))).drop 42 =
      delseg ++ (u64ToLeBytes da ++ bank) := by
    have h2 : (u64ToLeBytes amt ++
        (wop :: (win :: (owner ++
          (delseg ++ (u64ToLeBytes da ++ bank)))))).drop 42 =
        ((u64ToLeBytes amt ++
          (wop :: (win :: (owner ++
            (delseg ++ (u64ToLeBytes da ++ bank)))))).drop 10).drop 32 := by
      rw [List.drop_drop]
    rw [h2, h10, drop_len_append _ _ _ howner]
  have h78 : (u64ToLeBytes amt ++
      (wop :: (win :: (owner ++
        (delseg ++ (u64ToLeBytes da ++ bank)))))).drop 78 =
      u64ToLeBytes da ++ bank := by
    have h2 : (u64ToLeBytes amt ++
        (wop :: (win :: (owner ++
          (delseg ++ (u64ToLeBytes da ++ bank)))))).drop 78 =
        ((u64ToLeBytes amt ++
          (wop :: (win :: (owner ++
            (delseg ++ (u64ToLeBytes da ++ bank)))))).drop 42).drop 36 := by
      rw [List.drop_drop]
    rw [h2, h42, drop_len_append _ _ _ hdelseglen]
  have h86 : (u64ToLeBytes amt ++
      (wop :: (win :: (owner ++
        (delseg ++ (u64ToLeBytes da ++ bank)))))).drop 86 = bank := by
    have h2 : (u64ToLeBytes amt ++
        (wop :: (win :: (owner ++
          (delseg ++ (u64ToLeBytes da ++ bank)))))).drop 86 =
        ((u64ToLeBytes amt ++
          (wop :: (win :: (owner ++
            (delseg ++ (u64ToLeBytes da ++ bank)))))).drop 78).drop 8 := by
      rw [List.drop_drop]
    rw [h2, h78, drop_len_append _ _ _ (u64le_length da)]
  have hlen : (u64ToLeBytes amt ++
      (wop :: (win :: (owner ++
        (delseg ++ (u64ToLeBytes da ++ bank)))))).length = 118 := by
    simp [howner, hbank, u64le_length, hdelseglen]
  unfold accountUnpackUnchecked
  rw [if_pos hlen]
  unfold accountUnpackFromSlice
  rw [h42, take_len_append _ _ _ hdelseglen, hdeldec]
  simp only [h8, h9, h10, h78, h86]
  have hbanktake : bank.take 32 = bank := by
    rw [← hbank, List.take_length]
  simp [take_len_append _ _ _ howner, hbanktake,
    le_append_roundtrip amt _ ham, le_append_roundtrip da _ hda,
    hop, hin]

/-- Re-decoding an Account packed into a 118-byte buffer recovers the
value, provided the is_initialized byte cannot be confused (the flag
is true or the stale byte at offset 9 is 0). -/
theorem account_repack (a : Account) (dst : List Nat)
    (hdst : dst.length = 118)
    (howner : a.owner.length = 32) (hbank : a.bank.length = 32)
    (hdel : delegateKeyLen a.delegate)
    (ham : a.amount < U64LIMIT)
    (hda : a.delegated_amount < U64LIMIT)
    (hflag : a.is_initialized = true ∨ (dst.drop 9).headD 0 = 0) :
    accountUnpackUnchecked (accountPackIntoSlice a dst) = .ok a := by
  obtain ⟨amt, opened, init, owner, del, da, bank⟩ := a
  simp only at howner hbank ham hda hflag hdel
  unfold accountPackIntoSlice
  apply account_layout_decode _ _ _ _ _ _ _ _ _ _
    howner hbank ham hda
  · cases opened <;> simp
  · cases init with
    | true => simp
    | false =>
        rcases hflag with h | h
        · exact absurd h (by simp)
        · have h2 : dst[9]?.getD 0 = 0 := by simpa using h
          simp [h2]
  · rcases del with _ | k
    · simp [pack_coption_key, List.length_take, hdst]
    · simp only [delegateKeyLen] at hdel
      simp [pack_coption_key, hdel]
  · rcases del with _ | k
    · simp [pack_coption_key, unpack_coption_key]
    · simp only [delegateKeyLen] at hdel
      simp [pack_coption_key, unpack_coption_key,
        List.take_of_length_le (le_of_eq hdel)]

/-- A successful unchecked Account decode implies the source buffer is
118 bytes and the decoded identifier fields have length 32. -/
theorem accountUnpackUnchecked_ok (src : List Nat) (a : Account)
    (h : accountUnpackUnchecked src = .ok a) :
    src.length = 118 ∧ a.owner.length = 32 ∧ a.bank.length = 32 ∧
      delegateKeyLen a.delegate := by
  unfold accountUnpackUnchecked at h
  by_cases hl : src.length = 118
  · rw [if_pos hl] at h
    unfold accountUnpackFromSlice at h
    refine ⟨hl, ?_⟩
    split at h
    · exact absurd h (by simp)
    · rename_i del heq
      rw [Except.ok.injEq] at h
      subst h
      refine ⟨?_, ?_, ?_⟩
      · simp [List.length_take, List.length_drop, hl]
      · simp [List.length_take, List.length_drop, hl]
      · unfold unpack_coption_key at heq
        split at heq
        · rw [Except.ok.injEq] at heq
          subst heq
          simp [delegateKeyLen]
        · rw [Except.ok.injEq] at heq
          subst heq
          simp [delegateKeyLen, List.length_take, List.length_drop, hl]
        · exact absurd heq (by simp)
  · rw [if_neg hl] at h
    exact absurd h (by simp)

/-- With a byte-valid buffer, the decoded amounts are u64 values. -/
theorem accountUnpackUnchecked_ok_bounds (src : List Nat) (a : Account)
    (h : accountUnpackUnchecked src = .ok a) (hb : bytesValid src) :
    a.amount < U64LIMIT ∧ a.delegated_amount < U64LIMIT := by
  unfold accountUnpackUnchecked at h
  by_cases hl : src.length = 118
  · rw [if_pos hl] at h
    unfold accountUnpackFromSlice at h
    split at h
    · exact absurd h (by simp)
    · rename_i del heq
      rw [Except.ok.injEq] at h
      subst h
      constructor
      · exact leBytes_lt src hb
      · exact leBytes_lt (src.drop 78)
          (fun b hbm => hb b (List.drop_subset 78 src hbm))
  · rw [if_neg hl] at h
    exact absurd h (by simp)

/-- A successful checked Account decode is a successful unchecked
decode of an initialized account. -/
theorem accountUnpack_ok (src : List Nat) (a : Account)
    (h : accountUnpack src = .ok a) :
    accountUnpackUnchecked src = .ok a ∧ a.is_initialized = true := by
  unfold accountUnpack at h
  split at h
  · exact absurd h (by simp)
  · rename_i a2 heq
    split at h
    · rename_i hinit
      rw [Except.ok.injEq] at h
      subst h
      exact ⟨heq, hinit⟩
    · exact absurd h (by simp)

/-- A successful unchecked Bank decode implies a 42-byte source and a
32-byte owner identifier. -/
theorem bankUnpackUnchecked_ok (src : List Nat) (b : Bank)
    (h : bankUnpackUnchecked src = .ok b) :
    src.length = 42 ∧ b.bank_owner.length = 32 := by
  unfold bankUnpackUnchecked at h
  by_cases hl : src.length = 42
  · rw [if_pos hl] at h
    rw [Except.ok.injEq] at h
    subst h
    refine ⟨hl, ?_⟩
    simp [bankUnpackFromSlice, List.length_take, List.length_drop, hl]
  · rw [if_neg hl] at h
    exact absurd h (by simp)

/-- With a byte-valid buffer, the decoded supply is a u64 value. -/
theorem bankUnpackUnchecked_ok_bounds (src : List Nat) (b : Bank)
    (h : bankUnpackUnchecked src = .ok b) (hb : bytesValid src) :
    b.total_supply < U64LIMIT := by
  unfold bankUnpackUnchecked at h
  by_cases hl : src.length = 42
  · rw [if_pos hl] at h
    rw [Except.ok.injEq] at h
    subst h
    exact leBytes_lt (src.drop 34)
      (fun x hbm => hb x (List.drop_subset 34 src hbm))
  · rw [if_neg hl] at h
    exact absurd h (by simp)

/-- A successful checked Bank decode is a successful unchecked decode
of an opened bank. -/
theorem bankUnpack_ok (src : List Nat) (b : Bank)
    (h : bankUnpack src = .ok b) :
    bankUnpackUnchecked src = .ok b ∧ b.is_opened = true := by
  unfold bankUnpack at h
  split at h
  · exact absurd h (by simp)
  · rename_i b2 heq
    split at h
    · rename_i hop
      rw [Except.ok.injEq] at h
      subst h
      exact ⟨heq, hop⟩
    · exact absurd h (by simp)

theorem accountPack_ok (a : Account) (dst : List Nat)
    (h : dst.length = 118) :
    accountPack a dst = .ok (accountPackIntoSlice a dst) := by
  unfold accountPack
  rw [if_pos h]

theorem bankPack_ok (b : Bank) (dst : List Nat)
    (h : dst.length = 42) :
    bankPack b dst = .ok (bankPackIntoSlice b dst) := by
  unfold bankPack
  rw [if_pos h]

theorem bankPackIntoSlice_length (b : Bank) (dst : List Nat)
    (howner : b.bank_owner.length = 32) :
    (bankPackIntoSlice b dst).length = 42 := by
  simp [bankPackIntoSlice, howner, u64le_length]

theorem accountPackIntoSlice_length (a : Account) (dst : List Nat)
    (howner : a.owner.length = 32) (hbank : a.bank.length = 32)
    (hdel : delegateKeyLen a.delegate) (hdst : dst.length = 118) :
    (accountPackIntoSlice a dst).length = 118 := by
  have hseg : (pack_coption_key a.delegate
      ((dst.drop 46).take 32)).length = 36 := by
    rcases hd : a.delegate with _ | k
    · simp [pack_coption_key, List.length_take, hdst]
    · rw [hd] at hdel
      simp only [delegateKeyLen] at hdel
      simp [pack_coption_key, hdel]
  simp [accountPackIntoSlice, howner, hbank, u64le_length, hseg]

/-! ### Concrete values used by counterexamples and witnesses -/

/-- A well-formed Bank value. -/
def bankW : Bank :=
  { decimals := 3, bank_owner := List.replicate 32 5,
    is_opened := true, total_supply := 77 }

/-- A well-formed Account value with a delegate set. -/
def accountW : Account :=
  { amount := 9, is_opened := true, is_initialized := true,
    owner := List.replicate 32 1,
    delegate := some (List.replicate 32 2),
    delegated_amount := 4, bank := List.replicate 32 6 }

/-- A Bank value whose opened flag is false. -/
def bankClosedW : Bank :=
  { decimals := 0, bank_owner := List.replicate 32 0,
    is_opened := false, total_supply := 0 }

/-- A 42-byte buffer whose byte at offset 33 is 7. -/
def dirty42 : List Nat :=
  List.replicate 33 0 ++ (7 :: List.replicate 8 0)

/-! ### C6: codec round trip -/

/-- C6: for every Bank and Account value satisfying the field
constraints of the data model, encoding to the fixed-width byte layout
(42 bytes for Bank, 118 for Account) and decoding yields the original
value. -/
theorem codec_roundtrip_claim :
    (∀ b : Bank, b.Valid →
      bankUnpackUnchecked (bankEncode b) = .ok b) ∧
    (∀ a : Account, a.Valid →
      accountUnpackUnchecked (accountEncode a) = .ok a) := by
  constructor
  · intro b hv
    obtain ⟨h1, h2, h3, h4⟩ := hv
    exact bank_repack b _ h2 h4 (Or.inr (by decide))
  · intro a hv
    obtain ⟨h1, h2, h3, h4, h5, h6, h7⟩ := hv
    have hdl : delegateKeyLen a.delegate := by
      rcases hd : a.delegate with _ | k
      · simp [delegateKeyLen]
      · rw [hd] at h7
        simp only [delegateValid] at h7
        simp [delegateKeyLen, h7.1]
    exact account_repack a _ (by decide) h3 h5 hdl h1 h2
      (Or.inr (by decide))

/-- Witness for C6 at concrete Bank and Account values. -/
theorem codec_roundtrip_claim_witness :
    bankUnpackUnchecked (bankEncode bankW) = .ok bankW ∧
    accountUnpackUnchecked (accountEncode accountW) = .ok accountW :=
  ⟨codec_roundtrip_claim.1 bankW (by decide),
   codec_roundtrip_claim.2 accountW (by decide)⟩

/-! ### C7: encoding totality and buffer dependence -/

/-- C7 counterexample: encoding the same closed Bank value into two
42-byte buffers with different prior contents produces different
outputs, because the is_opened byte is not written when the flag is
false.  This refutes the claim that the encoded bytes are a function
of the value alone. -/
theorem pack_prior_dependence_cex :
    bankPackIntoSlice bankClosedW (List.replicate 42 0) ≠
      bankPackIntoSlice bankClosedW dirty42 := by decide

/-- C7 amended: encoding never fails and yields exactly the fixed
width (42 bytes for Bank, 118 for Account) on a destination of the
fixed width; but the output is a function of the value alone only when
the untouched bytes cannot show through — for Bank when is_opened is
true, for Account when is_initialized is true and a delegate is
present. -/
theorem pack_totality_amended :
    (∀ (b : Bank) (dst : List Nat), b.Valid → dst.length = 42 →
      bankPack b dst = .ok (bankPackIntoSlice b dst) ∧
      (bankPackIntoSlice b dst).length = 42 ∧
      (b.is_opened = true → ∀ dst2 : List Nat,
        bankPackIntoSlice b dst = bankPackIntoSlice b dst2)) ∧
    (∀ (a : Account) (dst : List Nat), a.Valid → dst.length = 118 →
      accountPack a dst = .ok (accountPackIntoSlice a dst) ∧
      (accountPackIntoSlice a dst).length = 118 ∧
      (a.is_initialized = true → ∀ k, a.delegate = some k →
        ∀ dst2 : List Nat,
          accountPackIntoSlice a dst = accountPackIntoSlice a dst2)) := by
  constructor
  · intro b dst hv hlen
    obtain ⟨h1, h2, h3, h4⟩ := hv
    refine ⟨bankPack_ok b dst hlen, bankPackIntoSlice_length b dst h2, ?_⟩
    intro hop dst2
    unfold bankPackIntoSlice
    rw [hop]
    simp
  · intro a dst hv hlen
    obtain ⟨h1, h2, h3, h4, h5, h6, h7⟩ := hv
    have hdl : delegateKeyLen a.delegate := by
      rcases hd : a.delegate with _ | k
      · simp [delegateKeyLen]
      · rw [hd] at h7
        simp only [delegateValid] at h7
        simp [delegateKeyLen, h7.1]
    refine ⟨accountPack_ok a dst hlen,
      accountPackIntoSlice_length a dst h3 h5 hdl hlen, ?_⟩
    intro hin k hk dst2
    unfold accountPackIntoSlice
    rw [hin, hk]
    simp [pack_coption_key]

/-- Witness for C7's amended claim at concrete values. -/
theorem pack_totality_amended_witness :
    bankPack bankW (List.replicate 42 0) =
      .ok (bankPackIntoSlice bankW (List.replicate 42 0)) ∧
    accountPack accountW (List.replicate 118 0) =
      .ok (accountPackIntoSlice accountW (List.replicate 118 0)) :=
  ⟨(pack_totality_amended.1 bankW _ (by decide) (by decide)).1,
   (pack_totality_amended.2 accountW _ (by decide) (by decide)).1⟩

/-! ### C8: instruction decoding -/

/-- Modelled from the claim's wording: the payload shapes on which
instruction decoding is said to fail — empty input, a tag above 6, tag
0 with no decimals byte, a tag in 2..=5 with fewer than 8 body
bytes. -/
def malformedInput (input : List Nat) : Prop :=
  match input with
  | [] => True
  | tag :: rest =>
      7 ≤ tag ∨ (tag = 0 ∧ rest = []) ∨
        (2 ≤ tag ∧ tag ≤ 5 ∧ rest.length < 8)

/-- C8: instruction decoding fails with a structured error exactly on
the malformed payload shapes, and on every well-formed payload returns
the variant of the tag table with the body read as specified (the
decimals byte for tag 0, the eight little-endian amount bytes for tags
2..=5, and no body for tags 1 and 6). -/
theorem instruction_unpack_claim :
    (∀ input : List Nat,
      (∃ e, BankInstruction.unpack input = .error e) ↔
        malformedInput input) ∧
    (∀ d r, BankInstruction.unpack (0 :: d :: r) =
      .ok (.InitializeBank d)) ∧
    (∀ r : List Nat, BankInstruction.unpack (1 :: r) =
      .ok .InitializeAccount) ∧
    (∀ r : List Nat, 8 ≤ r.length → BankInstruction.unpack (2 :: r) =
      .ok (.Transfer (leBytesToU64 r))) ∧
    (∀ r : List Nat, 8 ≤ r.length → BankInstruction.unpack (3 :: r) =
      .ok (.Approve (leBytesToU64 r))) ∧
    (∀ r : List Nat, 8 ≤ r.length → BankInstruction.unpack (4 :: r) =
      .ok (.MintTo (leBytesToU64 r))) ∧
    (∀ r : List Nat, 8 ≤ r.length → BankInstruction.unpack (5 :: r) =
      .ok (.Burn (leBytesToU64 r))) ∧
    (∀ r : List Nat, BankInstruction.unpack (6 :: r) =
      .ok .CloseAccount) := by
  refine ⟨?_, ?_, ?_, ?_, ?_, ?_, ?_, ?_⟩
  · intro input
    rcases input with _ | ⟨tag, rest⟩
    · simp [BankInstruction.unpack, malformedInput]
    rcases tag with _ | (_ | (_ | (_ | (_ | (_ | (_ | t))))))
    · rcases rest with _ | ⟨d, r⟩ <;>
        simp [BankInstruction.unpack, malformedInput]
    · simp [BankInstruction.unpack, malformedInput]
    · by_cases hr : rest.length < 8 <;>
        simp [BankInstruction.unpack, malformedInput, hr]
    · by_cases hr : rest.length < 8 <;>
        simp [BankInstruction.unpack, malformedInput, hr]
    · by_cases hr : rest.length < 8 <;>
        simp [BankInstruction.unpack, malformedInput, hr]
    · by_cases hr : rest.length < 8 <;>
        simp [BankInstruction.unpack, malformedInput, hr]
    · simp [BankInstruction.unpack, malformedInput]
    · simp [BankInstruction.unpack, malformedInput]
  · intro d r
    simp [BankInstruction.unpack]
  · intro r
    simp [BankInstruction.unpack]
  · intro r hr
    simp [BankInstruction.unpack, Nat.not_lt.mpr hr]
  · intro r hr
    simp [BankInstruction.unpack, Nat.not_lt.mpr hr]
  · intro r hr
    simp [BankInstruction.unpack, Nat.not_lt.mpr hr]
  · intro r hr
    simp [BankInstruction.unpack, Nat.not_lt.mpr hr]
  · intro r
    simp [BankInstruction.unpack]

/-- Witness for C8: a concrete well-formed Transfer payload decodes,
and the empty payload is characterized as malformed. -/
theorem instruction_unpack_claim_witness :
    BankInstruction.unpack (2 :: [200, 1, 0, 0, 0, 0, 0, 0]) =
      .ok (.Transfer (leBytesToU64 [200, 1, 0, 0, 0, 0, 0, 0])) ∧
    ((∃ e, BankInstruction.unpack ([] : List Nat) = .error e) ↔
      malformedInput []) :=
  ⟨instruction_unpack_claim.2.2.2.1 _ (by decide),
   instruction_unpack_claim.1 []⟩

/-! ### Arithmetic and authorization inversion lemmas -/

theorem checked_sub_some (a b : Nat) (h : b ≤ a) :
    checked_sub a b = some (a - b) := by
  unfold checked_sub
  rw [if_pos h]

theorem checked_add_inv (a b w : Nat) (h : checked_add a b = some w) :
    w = a + b ∧ a + b < U64LIMIT := by
  unfold checked_add at h
  split at h
  · rename_i hlt
    rw [Option.some.injEq] at h
    subst h
    exact ⟨rfl, hlt⟩
  · exact absurd h (by simp)

theorem checked_sub_inv (a b v : Nat) (h : checked_sub a b = some v) :
    v = a - b ∧ b ≤ a := by
  unfold checked_sub at h
  split at h
  · rename_i hle
    rw [Option.some.injEq] at h
    subst h
    exact ⟨rfl, hle⟩
  · exact absurd h (by simp)

theorem can_trade_inv (a : Account) (h : a.can_trade = true) :
    a.is_opened = true ∧ a.is_initialized = true := by
  unfold Account.can_trade at h
  exact And.imp id id (by simpa using h)

/-- Inversion of Processor::validate_owner on success: the authority
signed, and either the delegate path matched (result true) or the
authority is the account owner (result false). -/
theorem validate_owner_ok (a : Account) (o : AccountInfo) (r : Bool)
    (h : Processor.validate_owner a o = .ok r) :
    o.is_signer = true ∧
      ((r = true ∧ a.delegate = some o.key) ∨
        (r = false ∧ a.owner = o.key)) := by
  unfold Processor.validate_owner at h
  split at h
  · exact absurd h (by simp)
  · rename_i hsgn
    have hsgn2 : o.is_signer = true := by
      by_cases hb : o.is_signer = true
      · exact hb
      · exact absurd (by simp [Bool.not_eq_true] at hb ⊢; exact hb)
          hsgn
    refine ⟨hsgn2, ?_⟩
    split at h
    · rename_i k hk
      split at h
      · rename_i hkey
        rw [Except.ok.injEq] at h
        subst h
        exact Or.inl ⟨rfl, by rw [hk, hkey]⟩
      · split at h
        · exact absurd h (by simp)
        · rename_i hne
          rw [Except.ok.injEq] at h
          subst h
          exact Or.inr ⟨rfl, by simpa using hne⟩
    · split at h
      · exact absurd h (by simp)
      · rename_i hne
        rw [Except.ok.injEq] at h
        subst h
        exact Or.inr ⟨rfl, by simpa using hne⟩

/-! ### Concrete processor scenarios -/

/-- The ledger (program) identifier used in concrete scenarios. -/
def pidC : Pubkey := List.replicate 32 7

/-- The account owner's key in concrete scenarios. -/
def ownerKeyC : Pubkey := List.replicate 32 1

/-- The balance account's address in concrete scenarios. -/
def accKeyC : Pubkey := List.replicate 32 2

/-- The delegate's key in concrete scenarios. -/
def delKeyC : Pubkey := List.replicate 32 3

/-- The bank's address in concrete scenarios. -/
def bankKeyC : Pubkey := List.replicate 32 4

/-- The system (foreign) owner key in concrete scenarios. -/
def sysKeyC : Pubkey := List.replicate 32 0

/-! ### C1: the delegation bound -/

/-- The pre-state account for the C1 scenario: balance 1, nothing
delegated, no delegate set. -/
def accPreC1 : Account :=
  { amount := 1, is_opened := true, is_initialized := true,
    owner := ownerKeyC, delegate := none, delegated_amount := 0,
    bank := bankKeyC }

/-- The expected post-state of the C1 scenario. -/
def accPostC1 : Account :=
  { amount := 0, is_opened := true, is_initialized := true,
    owner := ownerKeyC, delegate := some delKeyC,
    delegated_amount := 1, bank := bankKeyC }

/-- The account handle holding the C1 pre-state. -/
def accInfoC1 : AccountInfo :=
  ⟨accKeyC, pidC, false, accountEncode accPreC1⟩

/-- The delegate handle of the C1 scenario. -/
def delInfoC1 : AccountInfo := ⟨delKeyC, sysKeyC, false, []⟩

/-- The signing owner handle of the C1 scenario. -/
def ownInfoC1 : AccountInfo := ⟨ownerKeyC, sysKeyC, true, []⟩

/-- C1 counterexample: a successful Approve of the full balance leaves
the account with delegated_amount = 1 greater than amount = 0, so the
claimed invariant delegated_amount less-or-equal amount fails after a
successful processor operation. -/
theorem delegation_bound_cex :
    (Processor.process pidC [accInfoC1, delInfoC1, ownInfoC1]
      (3 :: u64ToLeBytes 1)).2 = none ∧
    accountUnpackUnchecked
      ((Processor.process pidC [accInfoC1, delInfoC1, ownInfoC1]
        (3 :: u64ToLeBytes 1)).1.headD dummyInfo).data =
      .ok accPostC1 ∧
    accPostC1.amount < accPostC1.delegated_amount := by decide

/-- C1 amended: Approve does not keep delegated_amount below amount;
instead it moves the approved amount out of amount into
delegated_amount, conserving their sum.  For every successful Approve
of d on an account decoding to a, the post-state decodes to an account
with amount = a.amount - d, delegated_amount = a.delegated_amount + d,
d at most a.amount, and an unchanged amount + delegated_amount
total. -/
theorem approve_moves_allowance (pid : Pubkey)
    (accI delI ownI : AccountInfo) (rest : List AccountInfo)
    (d : Nat) (a : Account)
    (ha : accountUnpackUnchecked accI.data = .ok a)
    (hbytes : bytesValid accI.data)
    (hdk : delI.key.length = 32)
    (hsucc : (Processor.process_approve pid
      (accI :: delI :: ownI :: rest) d).2 = none) :
    ∃ a2 : Account,
      accountUnpackUnchecked
        ((Processor.process_approve pid
          (accI :: delI :: ownI :: rest) d).1.headD dummyInfo).data =
        .ok a2 ∧
      a2.amount = a.amount - d ∧
      a2.delegated_amount = a.delegated_amount + d ∧
      d ≤ a.amount ∧
      a2.amount + a2.delegated_amount =
        a.amount + a.delegated_amount := by
  obtain ⟨hlen118, hown32, hbank32, hdelkl⟩ :=
    accountUnpackUnchecked_ok _ _ ha
  obtain ⟨hamB, hdaB⟩ := accountUnpackUnchecked_ok_bounds _ _ ha hbytes
  simp only [Processor.process_approve, ha] at hsucc ⊢
  by_cases ho : accI.owner ≠ pid
  · simp [ho] at hsucc
  simp only [if_neg ho] at hsucc ⊢
  cases hct : a.can_trade with
  | false => simp [hct] at hsucc
  | true =>
  simp only [hct, Bool.not_true, Bool.false_eq_true, if_false] at hsucc ⊢
  by_cases hlt : a.amount < d
  · simp [hlt] at hsucc
  simp only [if_neg hlt] at hsucc ⊢
  have hle : d ≤ a.amount := Nat.le_of_not_lt hlt
  have hinit : a.is_initialized = true := (can_trade_inv a hct).2
  rcases hdel : a.delegate with _ | k
  all_goals simp only [hdel] at hsucc hdelkl ⊢
  · -- no delegate was set: the approve names delI.key
    simp only [checked_sub_some _ _ hle] at hsucc ⊢
    rcases hv : Processor.validate_owner
        { a with delegate := some delI.key } ownI with e | udel
    · simp [hv] at hsucc
    simp only [hv] at hsucc ⊢
    rcases hca : checked_add a.delegated_amount d with _ | w
    · simp [hca] at hsucc
    simp only [hca] at hsucc ⊢
    obtain ⟨hw, hwlt⟩ := checked_add_inv _ _ _ hca
    rw [accountPack_ok _ _ hlen118] at hsucc ⊢
    simp only [List.headD_cons]
    refine ⟨_, account_repack _ accI.data hlen118 hown32 hbank32
      (by simpa [delegateKeyLen] using hdk) ?_ ?_ (Or.inl hinit),
      ?_, ?_, hle, ?_⟩
    · exact Nat.lt_of_le_of_lt (Nat.sub_le _ _) hamB
    · simpa [hw] using hwlt
    · rfl
    · simpa using hw
    · simp [hw]
      omega
  · -- a delegate k is already set
    by_cases hkd : k ≠ delI.key
    · simp [hkd] at hsucc
    simp only [if_neg hkd] at hsucc ⊢
    simp only [checked_sub_some _ _ hle] at hsucc ⊢
    rcases hv : Processor.validate_owner a ownI with e | udel
    · simp [hv] at hsucc
    simp only [hv] at hsucc ⊢
    rcases hca : checked_add a.delegated_amount d with _ | w
    · simp [hca] at hsucc
    simp only [hca] at hsucc ⊢
    obtain ⟨hw, hwlt⟩ := checked_add_inv _ _ _ hca
    rw [accountPack_ok _ _ hlen118] at hsucc ⊢
    simp only [List.headD_cons]
    refine ⟨_, account_repack _ accI.data hlen118 hown32 hbank32
      (by rw [hdel]; exact hdelkl) ?_ ?_ (Or.inl hinit),
      ?_, ?_, hle, ?_⟩
    · exact Nat.lt_of_le_of_lt (Nat.sub_le _ _) hamB
    · simpa [hw] using hwlt
    · rfl
    · simpa using hw
    · simp [hw]
      omega

/-- Witness for C1's amended claim on the concrete Approve scenario. -/
theorem approve_moves_allowance_witness :
    ∃ a2 : Account,
      accountUnpackUnchecked
        ((Processor.process_approve pidC
          [accInfoC1, delInfoC1, ownInfoC1] 1).1.headD dummyInfo).data =
        .ok a2 ∧
      a2.amount = accPreC1.amount - 1 ∧
      a2.delegated_amount = accPreC1.delegated_amount + 1 ∧
      1 ≤ accPreC1.amount ∧
      a2.amount + a2.delegated_amount =
        accPreC1.amount + accPreC1.delegated_amount :=
  approve_moves_allowance pidC accInfoC1 delInfoC1 ownInfoC1 [] 1
    accPreC1 (by decide) (by decide) (by decide) (by decide)

/-! ### C3: Approve authorization -/

/-- The pre-state account for the C3 scenario: a delegate is set. -/
def accPreC3 : Account :=
  { amount := 5, is_opened := true, is_initialized := true,
    owner := ownerKeyC, delegate := some delKeyC,
    delegated_amount := 0, bank := bankKeyC }

/-- The account handle holding the C3 pre-state. -/
def accInfoC3 : AccountInfo :=
  ⟨accKeyC, pidC, false, accountEncode accPreC3⟩

/-- The delegate handle of the C3 scenario. -/
def delInfoC3 : AccountInfo := ⟨delKeyC, sysKeyC, false, []⟩

/-- The authority handle of the C3 scenario: the delegate itself
signs in the owner position. -/
def signerInfoC3 : AccountInfo := ⟨delKeyC, sysKeyC, true, []⟩

/-- C3 counterexample: an Approve whose signing authority is the
account's currently set delegate (not its owner) succeeds, refuting
the claim that it fails. -/
theorem approve_owner_auth_cex :
    (Processor.process pidC [accInfoC3, delInfoC3, signerInfoC3]
      (3 :: u64ToLeBytes 2)).2 = none ∧
    signerInfoC3.key ≠ accPreC3.owner := by decide

/-- C3 amended: for every successful Approve the authority handle is a
transaction signer, and its key equals the account's owner OR matches
the delegate slot as resolved by the operation — the already-set
delegate, or, when none was set, the delegate being installed by this
very Approve. -/
theorem approve_auth_amended (pid : Pubkey)
    (accI delI ownI : AccountInfo) (rest : List AccountInfo)
    (d : Nat) (a : Account)
    (ha : accountUnpackUnchecked accI.data = .ok a)
    (hsucc : (Processor.process_approve pid
      (accI :: delI :: ownI :: rest) d).2 = none) :
    ownI.is_signer = true ∧
      (ownI.key = a.owner ∨ a.delegate = some ownI.key ∨
        (a.delegate = none ∧ delI.key = ownI.key)) := by
  simp only [Processor.process_approve, ha] at hsucc
  by_cases ho : accI.owner ≠ pid
  · simp [ho] at hsucc
  simp only [if_neg ho] at hsucc
  cases hct : a.can_trade with
  | false => simp [hct] at hsucc
  | true =>
  simp only [hct, Bool.not_true, Bool.false_eq_true, if_false] at hsucc
  by_cases hlt : a.amount < d
  · simp [hlt] at hsucc
  simp only [if_neg hlt] at hsucc
  rcases hdel : a.delegate with _ | k
  all_goals simp only [hdel] at hsucc
  · rcases hv : Processor.validate_owner
        { a with delegate := some delI.key } ownI with e | udel
    · simp [hv] at hsucc
    obtain ⟨hsgn, hcase⟩ := validate_owner_ok _ _ _ hv
    refine ⟨hsgn, ?_⟩
    rcases hcase with ⟨_, hk⟩ | ⟨_, hk⟩
    · simp only at hk
      rw [Option.some.injEq] at hk
      exact Or.inr (Or.inr ⟨rfl, hk⟩)
    · exact Or.inl (by simpa using hk.symm)
  · by_cases hkd : k ≠ delI.key
    · simp [hkd] at hsucc
    have hkeq : k = delI.key := not_ne_iff.mp hkd
    simp [hkeq] at hsucc
    rcases hv : Processor.validate_owner a ownI with e | udel
    · simp [hv] at hsucc
    obtain ⟨hsgn, hcase⟩ := validate_owner_ok _ _ _ hv
    refine ⟨hsgn, ?_⟩
    rcases hcase with ⟨_, hk⟩ | ⟨_, hk⟩
    · rw [hdel] at hk
      exact Or.inr (Or.inl hk)
    · exact Or.inl hk.symm

/-- Witness for C3's amended claim on the delegate-signed scenario. -/
theorem approve_auth_amended_witness :
    signerInfoC3.is_signer = true ∧
      (signerInfoC3.key = accPreC3.owner ∨
        accPreC3.delegate = some signerInfoC3.key ∨
        (accPreC3.delegate = none ∧
          delInfoC3.key = signerInfoC3.key)) :=
  approve_auth_amended pidC accInfoC3 delInfoC3 signerInfoC3 [] 2
    accPreC3 (by decide) (by decide)

/-! ### C2: transfer conservation -/

/-- The address of the destination account in concrete scenarios. -/
def toKeyC : Pubkey := List.replicate 32 9

/-- C2 from-account pre-state: delegate set, 3 delegated. -/
def fromPreC2 : Account :=
  { amount := 5, is_opened := true, is_initialized := true,
    owner := ownerKeyC, delegate := some delKeyC,
    delegated_amount := 3, bank := bankKeyC }

/-- C2 to-account pre-state. -/
def toPreC2 : Account :=
  { amount := 0, is_opened := true, is_initialized := true,
    owner := ownerKeyC, delegate := none, delegated_amount := 0,
    bank := bankKeyC }

/-- C2 from-account post-state: only delegated_amount decreased. -/
def fromPostC2 : Account :=
  { amount := 5, is_opened := true, is_initialized := true,
    owner := ownerKeyC, delegate := some delKeyC,
    delegated_amount := 1, bank := bankKeyC }

/-- C2 to-account post-state. -/
def toPostC2 : Account :=
  { amount := 2, is_opened := true, is_initialized := true,
    owner := ownerKeyC, delegate := none, delegated_amount := 0,
    bank := bankKeyC }

/-- The C2 from-account handle. -/
def fromInfoC2 : AccountInfo :=
  ⟨accKeyC, pidC, false, accountEncode fromPreC2⟩

/-- The C2 to-account handle. -/
def toInfoC2 : AccountInfo :=
  ⟨toKeyC, pidC, false, accountEncode toPreC2⟩

/-- The C2 authority handle: the delegate signs. -/
def authInfoC2 : AccountInfo := ⟨delKeyC, sysKeyC, true, []⟩

/-- C2 counterexample: a successful delegate-path Transfer of 2
decrements the from-account's delegated_amount but not its amount, so
amount_from + amount_to grows from 5 to 7 and the claimed conservation
fails on the delegate path. -/
theorem transfer_conservation_cex :
    (Processor.process pidC [fromInfoC2, toInfoC2, authInfoC2]
      (2 :: u64ToLeBytes 2)).2 = none ∧
    accountUnpackUnchecked
      ((Processor.process pidC [fromInfoC2, toInfoC2, authInfoC2]
        (2 :: u64ToLeBytes 2)).1.headD dummyInfo).data =
      .ok fromPostC2 ∧
    accountUnpackUnchecked
      ((Processor.process pidC [fromInfoC2, toInfoC2, authInfoC2]
        (2 :: u64ToLeBytes 2)).1.tail.headD dummyInfo).data =
      .ok toPostC2 ∧
    fromPostC2.amount + toPostC2.amount ≠
      fromPreC2.amount + toPreC2.amount := by decide

/-- C2 amended: a successful Transfer conserves the total holdings
amount_from + delegated_from + amount_to (the owner path moves value
out of amount_from, the delegate path out of delegated_from; both
credit amount_to, which always grows by the transferred amount). -/
theorem transfer_conserves_holdings (pid : Pubkey)
    (fromI toI authI : AccountInfo) (rest : List AccountInfo)
    (t : Nat) (f g : Account)
    (hf : accountUnpack fromI.data = .ok f)
    (hg : accountUnpack toI.data = .ok g)
    (hbf : bytesValid fromI.data) (hbg : bytesValid toI.data)
    (hsucc : (Processor.process_transfer pid
      (fromI :: toI :: authI :: rest) t).2 = none) :
    ∃ f2 g2 : Account,
      accountUnpackUnchecked
        ((Processor.process_transfer pid
          (fromI :: toI :: authI :: rest) t).1.headD dummyInfo).data =
        .ok f2 ∧
      accountUnpackUnchecked
        ((Processor.process_transfer pid
          (fromI :: toI :: authI :: rest) t).1.tail.headD
            dummyInfo).data = .ok g2 ∧
      f2.amount + f2.delegated_amount + g2.amount =
        f.amount + f.delegated_amount + g.amount ∧
      g2.amount = g.amount + t := by
  obtain ⟨hfu, hfinit⟩ := accountUnpack_ok _ _ hf
  obtain ⟨hgu, hginit⟩ := accountUnpack_ok _ _ hg
  obtain ⟨hflen, hfown, hfbank, hfdel⟩ := accountUnpackUnchecked_ok _ _ hfu
  obtain ⟨hglen, hgown, hgbank, hgdel⟩ := accountUnpackUnchecked_ok _ _ hgu
  obtain ⟨hfam, hfda⟩ := accountUnpackUnchecked_ok_bounds _ _ hfu hbf
  obtain ⟨hgam, hgda⟩ := accountUnpackUnchecked_ok_bounds _ _ hgu hbg
  simp only [Processor.process_transfer, hf, hg] at hsucc ⊢
  by_cases ho : fromI.owner ≠ pid ∨ toI.owner ≠ pid
  · simp [ho] at hsucc
  simp only [if_neg ho] at hsucc ⊢
  cases hctf : f.can_trade with
  | false => simp [hctf] at hsucc
  | true =>
  cases hctg : g.can_trade with
  | false => simp [hctg] at hsucc
  | true =>
  simp only [hctf, hctg, Bool.not_true, Bool.false_eq_true, or_self,
    if_false] at hsucc ⊢
  by_cases hbk : f.bank ≠ g.bank
  · simp [hbk] at hsucc
  simp only [if_neg hbk] at hsucc ⊢
  rcases hv : Processor.validate_owner f authI with e | udel
  · simp [hv] at hsucc
  simp only [hv] at hsucc ⊢
  cases udel with
  | true =>
      by_cases hdlt : f.delegated_amount < t
      · simp [hdlt] at hsucc
      have hle : t ≤ f.delegated_amount := Nat.le_of_not_lt hdlt
      simp only [if_neg hdlt, checked_sub_some _ _ hle,
        Bool.true_eq_false, if_true] at hsucc ⊢
      rcases hca : checked_add g.amount t with _ | w
      · simp [hca] at hsucc
      simp only [hca] at hsucc ⊢
      obtain ⟨hw, hwlt⟩ := checked_add_inv _ _ _ hca
      rw [accountPack_ok _ _ hflen] at hsucc ⊢
      rw [accountPack_ok _ _ hglen] at hsucc ⊢
      simp only [List.headD_cons, List.tail_cons]
      refine ⟨_, _,
        account_repack _ fromI.data hflen hfown hfbank hfdel
          hfam (Nat.lt_of_le_of_lt (Nat.sub_le _ _) hfda)
          (Or.inl hfinit),
        account_repack _ toI.data hglen hgown hgbank hgdel
          (by simpa [hw] using hwlt) hgda (Or.inl hginit),
        ?_, ?_⟩
      · simp only [hw]
        omega
      · simpa using hw
  | false =>
      by_cases hflt : f.amount < t
      · simp [hflt] at hsucc
      have hle : t ≤ f.amount := Nat.le_of_not_lt hflt
      simp only [if_neg hflt, checked_sub_some _ _ hle,
        Bool.false_eq_true, if_false] at hsucc ⊢
      rcases hca : checked_add g.amount t with _ | w
      · simp [hca] at hsucc
      simp only [hca] at hsucc ⊢
      obtain ⟨hw, hwlt⟩ := checked_add_inv _ _ _ hca
      rw [accountPack_ok _ _ hflen] at hsucc ⊢
      rw [accountPack_ok _ _ hglen] at hsucc ⊢
      simp only [List.headD_cons, List.tail_cons]
      refine ⟨_, _,
        account_repack _ fromI.data hflen hfown hfbank hfdel
          (Nat.lt_of_le_of_lt (Nat.sub_le _ _) hfam) hfda
          (Or.inl hfinit),
        account_repack _ toI.data hglen hgown hgbank hgdel
          (by simpa [hw] using hwlt) hgda (Or.inl hginit),
        ?_, ?_⟩
      · simp only [hw]
        omega
      · simpa using hw

/-- Witness for C2's amended claim on the delegate-path scenario. -/
theorem transfer_conserves_holdings_witness :
    ∃ f2 g2 : Account,
      accountUnpackUnchecked
        ((Processor.process_transfer pidC
          [fromInfoC2, toInfoC2, authInfoC2] 2).1.headD
            dummyInfo).data = .ok f2 ∧
      accountUnpackUnchecked
        ((Processor.process_transfer pidC
          [fromInfoC2, toInfoC2, authInfoC2] 2).1.tail.headD
            dummyInfo).data = .ok g2 ∧
      f2.amount + f2.delegated_amount + g2.amount =
        fromPreC2.amount + fromPreC2.delegated_amount +
          toPreC2.amount ∧
      g2.amount = toPreC2.amount + 2 :=
  transfer_conserves_holdings pidC fromInfoC2 toInfoC2 authInfoC2 []
    2 fromPreC2 toPreC2 (by decide) (by decide) (by decide) (by decide)
    (by decide)

/-! ### C4: InitializeBank -/

/-- A 42-byte bank buffer with the opened flag clear but the supply
bytes encoding 5. -/
def bankBufC4 : List Nat :=
  0 :: (List.replicate 32 0 ++ (0 :: u64ToLeBytes 5))

/-- The bank handle of the C4 scenario. -/
def bankInfoC4 : AccountInfo := ⟨bankKeyC, pidC, false, bankBufC4⟩

/-- The signing bank owner handle of the C4 scenario. -/
def bankOwnInfoC4 : AccountInfo := ⟨ownerKeyC, sysKeyC, true, []⟩

/-- The bank record C4's InitializeBank actually produces. -/
def bankPostC4 : Bank :=
  { decimals := 9, bank_owner := ownerKeyC, is_opened := true,
    total_supply := 5 }

/-- C4 counterexample: InitializeBank on a not-yet-opened bank buffer
whose stale supply bytes encode 5 succeeds but leaves total_supply at
5, not 0 — the processor never writes the total_supply field. -/
theorem initialize_bank_supply_cex :
    (Processor.process pidC [bankInfoC4, bankOwnInfoC4] [0, 9]).2 =
      none ∧
    bankUnpackUnchecked
      ((Processor.process pidC [bankInfoC4, bankOwnInfoC4]
        [0, 9]).1.headD dummyInfo).data = .ok bankPostC4 ∧
    bankPostC4.total_supply ≠ 0 := by decide

/-- C4 amended: with the bank buffer owned by the program and the
bank owner signing, InitializeBank on an already-opened bank record
fails with the already-initialized error and leaves the handles
untouched; on a not-yet-opened record it succeeds, setting decimals to
the instruction argument, bank_owner to the signer's key, is_opened to
true — and leaving total_supply at whatever value the prior buffer
bytes decode to (0 only for a zero-filled fresh buffer). -/
theorem initialize_bank_amended (pid : Pubkey)
    (bankI ownI : AccountInfo) (rest : List AccountInfo)
    (d : Nat) (b : Bank)
    (hb : bankUnpackUnchecked bankI.data = .ok b)
    (hown : bankI.owner = pid)
    (hsgn : ownI.is_signer = true)
    (hkey : ownI.key.length = 32)
    (hbytes : bytesValid bankI.data) :
    (b.is_opened = true →
      Processor.process_initialize_bank pid (bankI :: ownI :: rest) d =
        (bankI :: ownI :: rest, some .AccountAlreadyInitialized)) ∧
    (b.is_opened = false →
      (Processor.process_initialize_bank pid
        (bankI :: ownI :: rest) d).2 = none ∧
      bankUnpackUnchecked
        ((Processor.process_initialize_bank pid
          (bankI :: ownI :: rest) d).1.headD dummyInfo).data =
        .ok { decimals := d, bank_owner := ownI.key,
              is_opened := true, total_supply := b.total_supply }) := by
  obtain ⟨hlen42, hbo32⟩ := bankUnpackUnchecked_ok _ _ hb
  have hsup := bankUnpackUnchecked_ok_bounds _ _ hb hbytes
  constructor
  · intro hop
    simp [Processor.process_initialize_bank, hb, hown, hsgn, hop]
  · intro hop
    have hred : Processor.process_initialize_bank pid
        (bankI :: ownI :: rest) d =
        ({ bankI with
            data := bankPackIntoSlice
                      (Bank.mk d ownI.key true b.total_supply)
                      bankI.data } ::
          ownI :: rest, none) := by
      simp only [Processor.process_initialize_bank, hb, hown, hsgn,
        hop, ne_eq, not_true_eq_false, if_false, Bool.not_true,
        Bool.false_eq_true]
      rw [bankPack_ok _ _ hlen42]
    rw [hred]
    refine ⟨rfl, ?_⟩
    simp only [List.headD_cons]
    exact bank_repack _ bankI.data hkey hsup (Or.inl rfl)

/-- Witness for C4's amended claim: the failure half on an opened bank
and the success half on the stale-supply buffer. -/
theorem initialize_bank_amended_witness :
    Processor.process_initialize_bank pidC
      [⟨bankKeyC, pidC, false, bankEncode bankW⟩, bankOwnInfoC4] 9 =
      ([⟨bankKeyC, pidC, false, bankEncode bankW⟩, bankOwnInfoC4],
        some .AccountAlreadyInitialized) ∧
    ((Processor.process_initialize_bank pidC
      [bankInfoC4, bankOwnInfoC4] 9).2 = none ∧
    bankUnpackUnchecked
      ((Processor.process_initialize_bank pidC
        [bankInfoC4, bankOwnInfoC4] 9).1.headD dummyInfo).data =
      .ok { decimals := 9, bank_owner := bankOwnInfoC4.key,
            is_opened := true,
            total_supply := (bankUnpackFromSlice bankBufC4).total_supply }) :=
  ⟨(initialize_bank_amended pidC _ bankOwnInfoC4 [] 9 bankW
      (by decide) (by decide) (by decide) (by decide) (by decide)).1
      (by decide),
   (initialize_bank_amended pidC bankInfoC4 bankOwnInfoC4 [] 9
      (bankUnpackFromSlice bankBufC4)
      (by decide) (by decide) (by decide) (by decide) (by decide)).2
      (by decide)⟩

/-! ### C9: CloseAccount -/

/-- C9: CloseAccount has no balance or openness precondition: for
every decoded initialized account whose buffer is program-owned and
whose owner signs, it succeeds — amount, delegated_amount and
is_opened are unconstrained (so it also succeeds on an already-closed
account, making it idempotent) — and it only clears is_opened,
leaving every other field and every other handle (hence every bank's
total_supply) untouched. -/
theorem close_account_claim (pid : Pubkey)
    (accI ownI : AccountInfo) (rest : List AccountInfo) (a : Account)
    (hown : accI.owner = pid)
    (hsgn : ownI.is_signer = true)
    (ha : accountUnpack accI.data = .ok a)
    (howner : a.owner = ownI.key)
    (hbytes : bytesValid accI.data) :
    (Processor.process_close_account pid (accI :: ownI :: rest)).2 =
      none ∧
    accountUnpackUnchecked
      ((Processor.process_close_account pid
        (accI :: ownI :: rest)).1.headD dummyInfo).data =
      .ok { a with is_opened := false } ∧
    (Processor.process_close_account pid
      (accI :: ownI :: rest)).1.tail = ownI :: rest := by
  obtain ⟨hau, hinit⟩ := accountUnpack_ok _ _ ha
  obtain ⟨hlen, hown32, hbank32, hdel⟩ := accountUnpackUnchecked_ok _ _ hau
  obtain ⟨hamB, hdaB⟩ := accountUnpackUnchecked_ok_bounds _ _ hau hbytes
  have hred : Processor.process_close_account pid
      (accI :: ownI :: rest) =
      ({ accI with
          data := accountPackIntoSlice
                    (Account.mk a.amount false a.is_initialized
                      a.owner a.delegate a.delegated_amount a.bank)
                    accI.data } ::
        ownI :: rest, none) := by
    simp only [Processor.process_close_account, ha, hown, howner,
      ne_eq, not_true_eq_false, if_false, hsgn, Bool.not_true,
      Bool.false_eq_true]
    rw [accountPack_ok _ _ hlen]
  rw [hred]
  refine ⟨rfl, ?_, rfl⟩
  simp only [List.headD_cons]
  exact account_repack _ accI.data hlen hown32 hbank32 hdel hamB hdaB
    (Or.inl hinit)

/-- The C9 scenario account: closed already, with nonzero amount and
delegated_amount. -/
def accPreC9 : Account :=
  { amount := 5, is_opened := false, is_initialized := true,
    owner := ownerKeyC, delegate := none, delegated_amount := 2,
    bank := bankKeyC }

/-- The C9 account handle. -/
def accInfoC9 : AccountInfo :=
  ⟨accKeyC, pidC, false, accountEncode accPreC9⟩

/-- The C9 signing owner handle. -/
def ownInfoC9 : AccountInfo := ⟨ownerKeyC, sysKeyC, true, []⟩

/-- Witness for C9 on an already-closed account with nonzero balance
and delegation. -/
theorem close_account_claim_witness :
    (Processor.process_close_account pidC [accInfoC9, ownInfoC9]).2 =
      none ∧
    accountUnpackUnchecked
      ((Processor.process_close_account pidC
        [accInfoC9, ownInfoC9]).1.headD dummyInfo).data =
      .ok { accPreC9 with is_opened := false } ∧
    (Processor.process_close_account pidC
      [accInfoC9, ownInfoC9]).1.tail = [ownInfoC9] :=
  close_account_claim pidC accInfoC9 ownInfoC9 [] accPreC9
    (by decide) (by decide) (by decide) (by decide) (by decide)

/-! ### C10: InitializeAccount -/

/-- C10: InitializeAccount never reads or validates the bank record:
with no hypothesis whatsoever on the bank handle's buffer (which may
fail to decode to an opened Bank), a program-owned uninitialized
account buffer and a signing owner, it succeeds; the account's bank
field is set to the bank handle's key and the bank handle is returned
byte-for-byte untouched. -/
theorem initialize_account_claim (pid : Pubkey)
    (bankI accI ownI : AccountInfo) (rest : List AccountInfo)
    (a : Account)
    (hbo : bankI.owner = pid) (hao : accI.owner = pid)
    (hsgn : ownI.is_signer = true)
    (ha : accountUnpackUnchecked accI.data = .ok a)
    (hinit : a.is_initialized = false)
    (hok : ownI.key.length = 32) (hbk : bankI.key.length = 32) :
    (Processor.process_initialize_account pid
      (bankI :: accI :: ownI :: rest)).2 = none ∧
    accountUnpackUnchecked
      ((Processor.process_initialize_account pid
        (bankI :: accI :: ownI :: rest)).1.tail.headD dummyInfo).data =
      .ok { amount := 0, is_opened := true, is_initialized := true,
            owner := ownI.key, delegate := none,
            delegated_amount := 0, bank := bankI.key } ∧
    (Processor.process_initialize_account pid
      (bankI :: accI :: ownI :: rest)).1.headD dummyInfo = bankI := by
  obtain ⟨hlen, hown32, hbank32, hdel⟩ := accountUnpackUnchecked_ok _ _ ha
  have hred : Processor.process_initialize_account pid
      (bankI :: accI :: ownI :: rest) =
      (bankI :: { accI with
          data := accountPackIntoSlice
                    (Account.mk 0 true true ownI.key none 0 bankI.key)
                    accI.data } :: ownI :: rest, none) := by
    simp only [Processor.process_initialize_account, ha, hbo, hao,
      hsgn, hinit, ne_eq, not_true_eq_false, or_self, if_false,
      Bool.not_true, Bool.false_eq_true]
    rw [accountPack_ok _ _ hlen]
  rw [hred]
  refine ⟨rfl, ?_, rfl⟩
  simp only [List.tail_cons, List.headD_cons]
  exact account_repack _ accI.data hlen hok hbk
    (by simp [delegateKeyLen])
    (by show (0 : Nat) < U64LIMIT; decide)
    (by show (0 : Nat) < U64LIMIT; decide) (Or.inl rfl)

/-- The C10 bank handle: its buffer is garbage that does not decode
to any Bank record. -/
def bankInfoC10 : AccountInfo := ⟨bankKeyC, pidC, false, [1, 2, 3]⟩

/-- The C10 not-yet-initialized account pre-state. -/
def accPreC10 : Account :=
  { amount := 0, is_opened := false, is_initialized := false,
    owner := sysKeyC, delegate := none, delegated_amount := 0,
    bank := sysKeyC }

/-- The C10 account handle. -/
def accInfoC10 : AccountInfo :=
  ⟨accKeyC, pidC, false, accountEncode accPreC10⟩

/-- The C10 signing owner handle. -/
def ownInfoC10 : AccountInfo := ⟨ownerKeyC, sysKeyC, true, []⟩

/-- Witness for C10: the bank buffer [1, 2, 3] decodes to nothing,
yet InitializeAccount succeeds and binds the account to the bank
handle's key. -/
theorem initialize_account_claim_witness :
    (Processor.process_initialize_account pidC
      [bankInfoC10, accInfoC10, ownInfoC10]).2 = none ∧
    accountUnpackUnchecked
      ((Processor.process_initialize_account pidC
        [bankInfoC10, accInfoC10, ownInfoC10]).1.tail.headD
          dummyInfo).data =
      .ok { amount := 0, is_opened := true, is_initialized := true,
            owner := ownInfoC10.key, delegate := none,
            delegated_amount := 0, bank := bankInfoC10.key } ∧
    (Processor.process_initialize_account pidC
      [bankInfoC10, accInfoC10, ownInfoC10]).1.headD dummyInfo =
      bankInfoC10 :=
  initialize_account_claim pidC bankInfoC10 accInfoC10 ownInfoC10 []
    accPreC10 (by decide) (by decide) (by decide) (by decide)
    (by decide) (by decide) (by decide)

/-! ### C5: failed operations never mutate buffers

Every per-operation handler performs all its checks and decodes before
its first buffer write, and a pack following a successful decode of
the same buffer cannot fail (the length was already validated), so an
error always surfaces before any write.  One lemma per handler, then
the dispatcher. -/

theorem init_bank_err (pid : Pubkey) (accounts : List AccountInfo)
    (d : Nat)
    (h : (Processor.process_initialize_bank pid accounts d).2.isSome =
      true) :
    (Processor.process_initialize_bank pid accounts d).1 = accounts := by
  rcases accounts with _ | ⟨bankI, _ | ⟨ownI, rest⟩⟩
  · rfl
  · rfl
  by_cases ho : bankI.owner ≠ pid
  · simp [Processor.process_initialize_bank, ho]
  cases hs : ownI.is_signer with
  | false => simp [Processor.process_initialize_bank, ho, hs]
  | true =>
  rcases hb : bankUnpackUnchecked bankI.data with e | b
  · simp [Processor.process_initialize_bank, ho, hs, hb]
  cases hop : b.is_opened with
  | true => simp [Processor.process_initialize_bank, ho, hs, hb, hop]
  | false =>
  have hlen := (bankUnpackUnchecked_ok _ _ hb).1
  simp [Processor.process_initialize_bank, ho, hs, hb, hop,
    bankPack_ok _ _ hlen] at h

theorem init_account_err (pid : Pubkey) (accounts : List AccountInfo)
    (h : (Processor.process_initialize_account pid
      accounts).2.isSome = true) :
    (Processor.process_initialize_account pid accounts).1 =
      accounts := by
  rcases accounts with _ | ⟨bankI, _ | ⟨accI, _ | ⟨ownI, rest⟩⟩⟩
  · rfl
  · rfl
  · rfl
  by_cases ho : bankI.owner ≠ pid ∨ accI.owner ≠ pid
  · simp [Processor.process_initialize_account, ho]
  cases hs : ownI.is_signer with
  | false => simp [Processor.process_initialize_account, ho, hs]
  | true =>
  rcases ha : accountUnpackUnchecked accI.data with e | a
  · simp [Processor.process_initialize_account, ho, hs, ha]
  cases hin : a.is_initialized with
  | true => simp [Processor.process_initialize_account, ho, hs, ha, hin]
  | false =>
  have hlen := (accountUnpackUnchecked_ok _ _ ha).1
  simp [Processor.process_initialize_account, ho, hs, ha, hin,
    accountPack_ok _ _ hlen] at h

theorem transfer_err (pid : Pubkey) (accounts : List AccountInfo)
    (t : Nat)
    (h : (Processor.process_transfer pid accounts t).2.isSome =
      true) :
    (Processor.process_transfer pid accounts t).1 = accounts := by
  rcases accounts with _ | ⟨fromI, _ | ⟨toI, _ | ⟨authI, rest⟩⟩⟩
  · rfl
  · rfl
  · rfl
  by_cases ho : fromI.owner ≠ pid ∨ toI.owner ≠ pid
  · simp [Processor.process_transfer, ho]
  rcases hf : accountUnpack fromI.data with e | f
  · simp [Processor.process_transfer, ho, hf]
  rcases hg : accountUnpack toI.data with e | g
  · simp [Processor.process_transfer, ho, hf, hg]
  cases hctf : f.can_trade with
  | false => simp [Processor.process_transfer, ho, hf, hg, hctf]
  | true =>
  cases hctg : g.can_trade with
  | false => simp [Processor.process_transfer, ho, hf, hg, hctf, hctg]
  | true =>
  by_cases hbk : f.bank ≠ g.bank
  · simp [Processor.process_transfer, ho, hf, hg, hctf, hctg, hbk]
  rcases hv : Processor.validate_owner f authI with e | udel
  · simp [Processor.process_transfer, ho, hf, hg, hctf, hctg, hbk, hv]
  have hflen := (accountUnpackUnchecked_ok _ _
    (accountUnpack_ok _ _ hf).1).1
  have hglen := (accountUnpackUnchecked_ok _ _
    (accountUnpack_ok _ _ hg).1).1
  cases udel with
  | true =>
      by_cases hdlt : f.delegated_amount < t
      · simp [Processor.process_transfer, ho, hf, hg, hctf, hctg,
          hbk, hv, hdlt]
      rcases hca : checked_add g.amount t with _ | w
      · simp [Processor.process_transfer, ho, hf, hg, hctf, hctg,
          hbk, hv, hdlt, checked_sub_some _ _ (Nat.le_of_not_lt hdlt),
          hca]
      simp [Processor.process_transfer, ho, hf, hg, hctf, hctg, hbk,
        hv, hdlt, checked_sub_some _ _ (Nat.le_of_not_lt hdlt), hca,
        accountPack_ok _ _ hflen, accountPack_ok _ _ hglen] at h
  | false =>
      by_cases hflt : f.amount < t
      · simp [Processor.process_transfer, ho, hf, hg, hctf, hctg,
          hbk, hv, hflt]
      rcases hca : checked_add g.amount t with _ | w
      · simp [Processor.process_transfer, ho, hf, hg, hctf, hctg,
          hbk, hv, hflt, checked_sub_some _ _ (Nat.le_of_not_lt hflt),
          hca]
      simp [Processor.process_transfer, ho, hf, hg, hctf, hctg, hbk,
        hv, hflt, checked_sub_some _ _ (Nat.le_of_not_lt hflt), hca,
        accountPack_ok _ _ hflen, accountPack_ok _ _ hglen] at h

theorem approve_err (pid : Pubkey) (accounts : List AccountInfo)
    (d : Nat)
    (h : (Processor.process_approve pid accounts d).2.isSome =
      true) :
    (Processor.process_approve pid accounts d).1 = accounts := by
  rcases accounts with _ | ⟨accI, _ | ⟨delI, _ | ⟨ownI, rest⟩⟩⟩
  · rfl
  · rfl
  · rfl
  by_cases ho : accI.owner ≠ pid
  · simp [Processor.process_approve, ho]
  rcases ha : accountUnpackUnchecked accI.data with e | a
  · simp [Processor.process_approve, ho, ha]
  cases hct : a.can_trade with
  | false => simp [Processor.process_approve, ho, ha, hct]
  | true =>
  by_cases hlt : a.amount < d
  · simp [Processor.process_approve, ho, ha, hct, hlt]
  have hlen := (accountUnpackUnchecked_ok _ _ ha).1
  have hle : d ≤ a.amount := Nat.le_of_not_lt hlt
  rcases hdel : a.delegate with _ | k
  · rcases hv : Processor.validate_owner
        { a with delegate := some delI.key } ownI with e | udel
    · simp [Processor.process_approve, ho, ha, hct, hlt, hdel, hv]
    rcases hca : checked_add a.delegated_amount d with _ | w
    · simp [Processor.process_approve, ho, ha, hct, hlt, hdel, hv,
        checked_sub_some _ _ hle, hca]
    simp [Processor.process_approve, ho, ha, hct, hlt, hdel, hv,
      checked_sub_some _ _ hle, hca, accountPack_ok _ _ hlen] at h
  · by_cases hkd : k ≠ delI.key
    · simp [Processor.process_approve, ho, ha, hct, hlt, hdel, hkd]
    rcases hv : Processor.validate_owner a ownI with e | udel
    · simp [Processor.process_approve, ho, ha, hct, hlt, hdel, hkd,
        hv]
    rcases hca : checked_add a.delegated_amount d with _ | w
    · simp [Processor.process_approve, ho, ha, hct, hlt, hdel, hkd,
        hv, checked_sub_some _ _ hle, hca]
    simp [Processor.process_approve, ho, ha, hct, hlt, hdel, hkd, hv,
      checked_sub_some _ _ hle, hca, accountPack_ok _ _ hlen] at h

theorem mint_err (pid : Pubkey) (accounts : List AccountInfo)
    (m : Nat)
    (h : (Processor.process_mint_to pid accounts m).2.isSome =
      true) :
    (Processor.process_mint_to pid accounts m).1 = accounts := by
  rcases accounts with _ | ⟨bankI, _ | ⟨toI, _ | ⟨ownI, rest⟩⟩⟩
  · rfl
  · rfl
  · rfl
  by_cases ho : bankI.owner ≠ pid ∨ toI.owner ≠ pid
  · simp [Processor.process_mint_to, ho]
  cases hs : ownI.is_signer with
  | false => simp [Processor.process_mint_to, ho, hs]
  | true =>
  rcases hb : bankUnpack bankI.data with e | b
  · simp [Processor.process_mint_to, ho, hs, hb]
  rcases hg : accountUnpack toI.data with e | g
  · simp [Processor.process_mint_to, ho, hs, hb, hg]
  by_cases hgb : g.bank ≠ bankI.key
  · simp [Processor.process_mint_to, ho, hs, hb, hg, hgb]
  cases hct : g.can_trade with
  | false => simp [Processor.process_mint_to, ho, hs, hb, hg, hgb, hct]
  | true =>
  by_cases hbo : b.bank_owner ≠ ownI.key
  · simp [Processor.process_mint_to, ho, hs, hb, hg, hgb, hct, hbo]
  rcases hc1 : checked_add b.total_supply m with _ | s1
  · simp [Processor.process_mint_to, ho, hs, hb, hg, hgb, hct, hbo,
      hc1]
  rcases hc2 : checked_add g.amount m with _ | w
  · simp [Processor.process_mint_to, ho, hs, hb, hg, hgb, hct, hbo,
      hc1, hc2]
  have hblen := (bankUnpackUnchecked_ok _ _ (bankUnpack_ok _ _ hb).1).1
  have hglen := (accountUnpackUnchecked_ok _ _
    (accountUnpack_ok _ _ hg).1).1
  simp [Processor.process_mint_to, ho, hs, hb, hg, hgb, hct, hbo,
    hc1, hc2, bankPack_ok _ _ hblen, accountPack_ok _ _ hglen] at h

theorem burn_err (pid : Pubkey) (accounts : List AccountInfo)
    (m : Nat)
    (h : (Processor.process_burn pid accounts m).2.isSome = true) :
    (Processor.process_burn pid accounts m).1 = accounts := by
  rcases accounts with _ | ⟨bankI, _ | ⟨burnI, _ | ⟨ownI, _ | ⟨srcOwnI,
    rest⟩⟩⟩⟩
  · rfl
  · rfl
  · rfl
  · rfl
  by_cases ho : bankI.owner ≠ pid ∨ burnI.owner ≠ pid
  · simp [Processor.process_burn, ho]
  by_cases hs : ownI.is_signer = false ∨ srcOwnI.is_signer = false
  · simp [Processor.process_burn, ho, hs]
  rcases hb : bankUnpack bankI.data with e | b
  · simp [Processor.process_burn, ho, hs, hb]
  rcases hg : accountUnpack burnI.data with e | g
  · simp [Processor.process_burn, ho, hs, hb, hg]
  by_cases hgb : g.bank ≠ bankI.key
  · simp [Processor.process_burn, ho, hs, hb, hg, hgb]
  by_cases hbo : b.bank_owner ≠ ownI.key ∨ g.owner ≠ srcOwnI.key
  · simp [Processor.process_burn, ho, hs, hb, hg, hgb, hbo]
  by_cases hlt : g.amount < m
  · simp [Processor.process_burn, ho, hs, hb, hg, hgb, hbo, hlt]
  rcases hc1 : checked_sub b.total_supply m with _ | s1
  · simp [Processor.process_burn, ho, hs, hb, hg, hgb, hbo, hlt, hc1]
  have hblen := (bankUnpackUnchecked_ok _ _ (bankUnpack_ok _ _ hb).1).1
  have hglen := (accountUnpackUnchecked_ok _ _
    (accountUnpack_ok _ _ hg).1).1
  simp [Processor.process_burn, ho, hs, hb, hg, hgb, hbo, hlt, hc1,
    checked_sub_some _ _ (Nat.le_of_not_lt hlt),
    bankPack_ok _ _ hblen, accountPack_ok _ _ hglen] at h

theorem close_err (pid : Pubkey) (accounts : List AccountInfo)
    (h : (Processor.process_close_account pid accounts).2.isSome =
      true) :
    (Processor.process_close_account pid accounts).1 = accounts := by
  rcases accounts with _ | ⟨accI, _ | ⟨ownI, rest⟩⟩
  · rfl
  · rfl
  by_cases ho : accI.owner ≠ pid
  · simp [Processor.process_close_account, ho]
  cases hs : ownI.is_signer with
  | false => simp [Processor.process_close_account, ho, hs]
  | true =>
  rcases ha : accountUnpack accI.data with e | a
  · simp [Processor.process_close_account, ho, hs, ha]
  by_cases hw : a.owner ≠ ownI.key
  · simp [Processor.process_close_account, ho, hs, ha, hw]
  have hlen := (accountUnpackUnchecked_ok _ _
    (accountUnpack_ok _ _ ha).1).1
  simp [Processor.process_close_account, ho, hs, ha, hw,
    accountPack_ok _ _ hlen] at h

/-- C5: for every instruction payload and every input state, if the
processor returns a failure then every account handle it was given is
returned byte-for-byte unchanged — no partial write survives a failed
operation.  Every handler checks and decodes before its first write,
and a pack after a successful decode of the same buffer cannot
fail. -/
theorem failed_op_preserves_buffers (pid : Pubkey)
    (accounts : List AccountInfo) (input : List Nat)
    (h : (Processor.process pid accounts input).2.isSome = true) :
    (Processor.process pid accounts input).1 = accounts := by
  unfold Processor.process at h ⊢
  rcases hu : BankInstruction.unpack input with e | instr
  · simp [hu]
  simp only [hu] at h ⊢
  cases instr with
  | InitializeBank d => exact init_bank_err pid accounts d h
  | InitializeAccount => exact init_account_err pid accounts h
  | Transfer t => exact transfer_err pid accounts t h
  | Approve d => exact approve_err pid accounts d h
  | MintTo m => exact mint_err pid accounts m h
  | Burn m => exact burn_err pid accounts m h
  | CloseAccount => exact close_err pid accounts h

/-- Witness for C5 on a concrete failing call (empty instruction). -/
theorem failed_op_preserves_buffers_witness :
    (Processor.process pidC [accInfoC1, delInfoC1, ownInfoC1] []).1 =
      [accInfoC1, delInfoC1, ownInfoC1] :=
  failed_op_preserves_buffers pidC [accInfoC1, delInfoC1, ownInfoC1]
    [] (by decide)

end BankSpec
